import Mathlib

/-!
Verification of the sbn-psi/sbib3d footprint core.

This file embeds the core of the repository in Lean:

* `parseInterceptPoint` — the tabular result parser of
  src/lib/wgc2Footprint.ts (lines 181-215);
* `fetchFootprintPolygon` — the footprint assembler of
  src/lib/wgc2Footprint.ts (lines 462-528), modelled over the sequence of
  per-ray outcomes of fetchInterceptPointForRay (the remote service is the
  external dependency, so a run is identified with the list of per-ray
  results in ray-generation order);
* `triangulateFanXYZ` — the fan triangulator of
  src/lib/wgc2Footprint.ts (lines 540-588);
* `pollForCompletion` — the poll loop of src/lib/wgc2Footprint.ts
  (lines 100-176), modelled over an oracle giving the outcome of each
  network fetch;
* `calculateBoundaryMeters` — the perimeter routine of
  src/app/api/footprint/route.ts (lines 120-135);
* `generateFovBoundaryVectors` — the ray-direction generator of
  src/lib/wgc2Footprint.ts (lines 299-350), over the reals.

Machine numbers are idealised as ℚ (for the data-flow components) or ℝ
(for the trigonometric / square-root components).
-/

namespace Sbib3d

/-- Intercept point in kilometers, mirroring interface `InterceptPointKm`
of src/lib/wgc2Footprint.ts. -/
structure InterceptPointKm where
  xKm : ℚ
  yKm : ℚ
  zKm : ℚ
deriving DecidableEq, Repr

/-- One column descriptor of the WGC2 tabular result format
(`columns: Array<{ name; type; units; outputID }>`).  The field `type`
of the source is rendered `colType` (`type` is reserved in Lean). -/
structure WGC2Column where
  name : String
  colType : String
  units : String
  outputID : String
deriving DecidableEq, Repr

/-- A cell of a result row.  Rows are `any[][]` in the source; a cell is a
JSON number, a string (coerced with `parseFloat`), or some other value
(whose `parseFloat` coercion yields NaN). -/
inductive CellVal where
  | num (x : ℚ)
  | str (s : String)
  | other
deriving DecidableEq, Repr

/-- A row of the result table.  The source guards each row with
`Array.isArray(row)`, so a row is either an array of cells or a
non-array value. -/
inductive RowVal where
  | arr (cells : List CellVal)
  | nonArr
deriving DecidableEq, Repr

/-- The tabular part of interface `WGC2ResultResponse`
(src/lib/wgc2Footprint.ts lines 63-68): optional `columns` and `rows`
fields.  `none` models an absent (or non-array) field. -/
structure WGC2ResultResponse where
  columns : Option (List WGC2Column)
  rows : Option (List RowVal)
deriving DecidableEq, Repr

/-- Rendering of a cell inside the invalid-numeric error message
(template literal at line 208 of the source). -/
def CellVal.render : CellVal → String
  | .num x => toString x
  | .str s => s
  | .other => "undefined"

/-- The coercion at lines 203-205 of the source:
`typeof v === 'number' ? v : parseFloat(v)`, with NaN modelled as `none`.
`jsParseFloat` abstracts the JavaScript builtin `parseFloat`. -/
def coerceCell (jsParseFloat : String → Option ℚ) : CellVal → Option ℚ
  | .num x => some x
  | .str s => jsParseFloat s
  | .other => none

/-- Embedding of `parseInterceptPoint` (src/lib/wgc2Footprint.ts lines
181-215).  JavaScript `findIndex` with its `-1` sentinel is rendered as
`List.findIdx?`; the `xIndex === -1 || ...` check becomes the `isNone`
test, after which the indices are read back with `getD 0` (never the
default, by the check). -/
def parseInterceptPoint (jsParseFloat : String → Option ℚ)
    (resultData : WGC2ResultResponse) : Except String InterceptPointKm :=
  match resultData.columns, resultData.rows with
  | some cols, some rows =>
    let xIndex := cols.findIdx? fun col => col.outputID == "X"
    let yIndex := cols.findIdx? fun col => col.outputID == "Y"
    let zIndex := cols.findIdx? fun col => col.outputID == "Z"
    if xIndex.isNone || yIndex.isNone || zIndex.isNone then
      .error ("Could not find X, Y, Z columns in result data. Available outputIDs: "
        ++ String.intercalate ", " (cols.map fun col => col.outputID))
    else
      let xi := xIndex.getD 0
      let yi := yIndex.getD 0
      let zi := zIndex.getD 0
      match rows with
      | [] => .error "No rows in WGC2 result data"
      | row :: _ =>
        match row with
        | .nonArr => .error "Invalid row format in WGC2 result data"
        | .arr cells =>
          if cells.length ≤ max xi (max yi zi) then
            .error "Invalid row format in WGC2 result data"
          else
            match coerceCell jsParseFloat (cells.getD xi .other),
                  coerceCell jsParseFloat (cells.getD yi .other),
                  coerceCell jsParseFloat (cells.getD zi .other) with
            | some x, some y, some z => .ok ⟨x, y, z⟩
            | _, _, _ =>
              .error ("Invalid numeric values in result row: x="
                ++ (cells.getD xi .other).render ++ ", y="
                ++ (cells.getD yi .other).render ++ ", z="
                ++ (cells.getD zi .other).render)
  | _, _ => .error "Unsupported WGC2 result format. Expected columns/rows format."

/-- The accumulation loop of `fetchFootprintPolygon` (lines 492-510):
walk the per-ray outcomes in ray-generation order, pushing successes onto
`intercepts` and failure messages onto `errors`. -/
def collectIntercepts :
    List (Except String InterceptPointKm) → List InterceptPointKm × List String
  | [] => ([], [])
  | Except.ok p :: rest =>
    let r := collectIntercepts rest
    (p :: r.1, r.2)
  | Except.error e :: rest =>
    let r := collectIntercepts rest
    (r.1, e :: r.2)

/-- Embedding of `fetchFootprintPolygon` (src/lib/wgc2Footprint.ts lines
462-528).  `rayResults` is the sequence of outcomes of
`fetchInterceptPointForRay`, one per generated boundary vector, in
ray-generation order (so `rayResults.length = boundaryVectors.length`).
The returned flat list is the `Float32Array` boundary, interleaved
x, y, z with each kilometer value multiplied by 1000. -/
def fetchFootprintPolygon (rayResults : List (Except String InterceptPointKm)) :
    Except String (List ℚ) :=
  let intercepts := (collectIntercepts rayResults).1
  let errors := (collectIntercepts rayResults).2
  if intercepts.length < 3 then
    .error ("Insufficient intercepts to form a polygon; boundary size: "
      ++ toString intercepts.length ++ ". Failed rays: "
      ++ toString errors.length ++ "/" ++ toString rayResults.length)
  else
    .ok (intercepts.flatMap fun p => [p.xKm * 1000, p.yKm * 1000, p.zKm * 1000])

/-- Embedding of `triangulateFanXYZ` (src/lib/wgc2Footprint.ts lines
540-588).  The `Float32Array` of interleaved XYZ coordinates is a flat
list; the output is written sequentially, 9 values per triangle, exactly
as the source loop does. -/
def triangulateFanXYZ (boundaryMeters : List ℚ) : Except String (List ℚ) :=
  let vertexCount := boundaryMeters.length / 3
  if vertexCount < 3 then
    .error ("Insufficient vertices for triangulation: " ++ toString vertexCount
      ++ ". Need at least 3.")
  else
    let triangleCount := vertexCount - 2
    .ok ((List.range triangleCount).flatMap fun i =>
      [boundaryMeters.getD 0 0, boundaryMeters.getD 1 0, boundaryMeters.getD 2 0,
       boundaryMeters.getD ((i + 1) * 3) 0, boundaryMeters.getD ((i + 1) * 3 + 1) 0,
       boundaryMeters.getD ((i + 1) * 3 + 2) 0,
       boundaryMeters.getD ((i + 2) * 3) 0, boundaryMeters.getD ((i + 2) * 3 + 1) 0,
       boundaryMeters.getD ((i + 2) * 3 + 2) 0])

/-- Interleave a list of 3D points into the flat x, y, z, x, y, z, ...
layout used by the `Float32Array` buffers. -/
def flattenPoints (pts : List (ℚ × ℚ × ℚ)) : List ℚ :=
  pts.flatMap fun p => [p.1, p.2.1, p.2.2]

/-- The fan triangulation described by the specification: for `i` from 1
to `n-2`, the triangle `(p0, p[i], p[i+1])`, listed as a flat sequence of
points (3 per triangle). -/
def fanTriangles (pts : List (ℚ × ℚ × ℚ)) : List (ℚ × ℚ × ℚ) :=
  (List.range (pts.length - 2)).flatMap fun i =>
    [pts.getD 0 (0, 0, 0), pts.getD (i + 1) (0, 0, 0), pts.getD (i + 2) (0, 0, 0)]

/-- The failure projection of a per-ray outcome (the `errors` list entry
pushed on the catch path). -/
def errToOption : Except String InterceptPointKm → Option String
  | .error e => some e
  | .ok _ => none

lemma collectIntercepts_eq (l : List (Except String InterceptPointKm)) :
    collectIntercepts l = (l.filterMap Except.toOption, l.filterMap errToOption) := by
  induction l with
  | nil => rfl
  | cons r rest ih =>
    cases r with
    | ok p => simp [collectIntercepts, ih, Except.toOption, errToOption]
    | error e => simp [collectIntercepts, ih, Except.toOption, errToOption]

lemma filterMap_toOption_add_err_length (l : List (Except String InterceptPointKm)) :
    (l.filterMap Except.toOption).length + (l.filterMap errToOption).length = l.length := by
  induction l with
  | nil => rfl
  | cons r rest ih =>
    cases r with
    | ok p => simp [Except.toOption, errToOption]; omega
    | error e => simp [Except.toOption, errToOption]; omega

lemma length_flatMap_three {α β : Type} (l : List α) (f g h : α → β) :
    (l.flatMap fun x => [f x, g x, h x]).length = 3 * l.length := by
  induction l with
  | nil => rfl
  | cons a rest ih => simp only [List.flatMap_cons, List.length_append, ih,
      List.length_cons, List.length_nil]; omega

lemma filterMap_toOption_length_countP (l : List (Except String InterceptPointKm)) :
    (l.filterMap Except.toOption).length = l.countP fun r => r.isOk := by
  induction l with
  | nil => rfl
  | cons r rest ih =>
    cases r with
    | ok p => simp [Except.toOption, Except.isOk, Except.toBool, ih, List.countP_cons]
    | error e => simp [Except.toOption, Except.isOk, Except.toBool, ih, List.countP_cons]

lemma countP_isOk_add_not (l : List (Except String InterceptPointKm)) :
    (l.countP fun r => r.isOk) + (l.countP fun r => !r.isOk) = l.length := by
  induction l with
  | nil => rfl
  | cons r rest ih =>
    cases r with
    | ok p =>
      simp [Except.isOk, Except.toBool, List.countP_cons] at ih ⊢; omega
    | error e =>
      simp [Except.isOk, Except.toBool, List.countP_cons] at ih ⊢; omega

lemma fetchFootprintPolygon_ok
    (rayResults : List (Except String InterceptPointKm))
    (hsucc : 3 ≤ (rayResults.filterMap Except.toOption).length) :
    fetchFootprintPolygon rayResults =
      .ok ((rayResults.filterMap Except.toOption).flatMap fun p =>
        [p.xKm * 1000, p.yKm * 1000, p.zKm * 1000]) := by
  unfold fetchFootprintPolygon
  rw [collectIntercepts_eq]
  simp only [if_neg (by omega : ¬ (rayResults.filterMap Except.toOption).length < 3)]

/-- C1.  With at least 3 successful rays, the assembler emits exactly the
successfully parsed intercept points, in ray-generation order (failures
skipped), each coordinate being the parsed kilometer value times 1000. -/
theorem fetchFootprintPolygon_boundary_order
    (rayResults : List (Except String InterceptPointKm))
    (hsucc : 3 ≤ (rayResults.filterMap Except.toOption).length) :
    fetchFootprintPolygon rayResults =
      .ok ((rayResults.filterMap Except.toOption).flatMap fun p =>
        [p.xKm * 1000, p.yKm * 1000, p.zKm * 1000]) :=
  fetchFootprintPolygon_ok rayResults hsucc

theorem fetchFootprintPolygon_boundary_order_witness :
    3 ≤ (([Except.ok ⟨1, 2, 3⟩, Except.ok ⟨4, 5, 6⟩, Except.ok ⟨7, 8, 9⟩] :
        List (Except String InterceptPointKm)).filterMap Except.toOption).length ∧
    fetchFootprintPolygon [Except.ok ⟨1, 2, 3⟩, Except.ok ⟨4, 5, 6⟩, Except.ok ⟨7, 8, 9⟩] =
      .ok [1000, 2000, 3000, 4000, 5000, 6000, 7000, 8000, 9000] := by
  refine ⟨by decide, ?_⟩
  have h := fetchFootprintPolygon_boundary_order
    [Except.ok ⟨1, 2, 3⟩, Except.ok ⟨4, 5, 6⟩, Except.ok ⟨7, 8, 9⟩] (by decide)
  rw [h]
  norm_num [Except.toOption, List.filterMap]

/-- C3.  When fewer than 3 rays succeed, the assembler fails with the
insufficient-intercepts error, whose message states the success count
(boundary size) and the ray-generation total (the denominator of the
failure ratio). -/
theorem fetchFootprintPolygon_insufficient
    (rayResults : List (Except String InterceptPointKm))
    (hsucc : (rayResults.filterMap Except.toOption).length < 3) :
    fetchFootprintPolygon rayResults =
      .error ("Insufficient intercepts to form a polygon; boundary size: "
        ++ toString (rayResults.filterMap Except.toOption).length
        ++ ". Failed rays: "
        ++ toString (rayResults.length - (rayResults.filterMap Except.toOption).length)
        ++ "/" ++ toString rayResults.length) := by
  unfold fetchFootprintPolygon
  rw [collectIntercepts_eq]
  simp only [if_pos hsucc]
  have hlen := filterMap_toOption_add_err_length rayResults
  have : (rayResults.filterMap errToOption).length =
      rayResults.length - (rayResults.filterMap Except.toOption).length := by omega
  rw [this]

theorem fetchFootprintPolygon_insufficient_witness :
    (([Except.ok ⟨1, 2, 3⟩, Except.error "ray failed", Except.error "ray failed",
        Except.ok ⟨4, 5, 6⟩] :
        List (Except String InterceptPointKm)).filterMap Except.toOption).length < 3 ∧
    fetchFootprintPolygon
        [Except.ok ⟨1, 2, 3⟩, Except.error "ray failed", Except.error "ray failed",
         Except.ok ⟨4, 5, 6⟩] =
      .error "Insufficient intercepts to form a polygon; boundary size: 2. Failed rays: 2/4" := by
  refine ⟨by decide, ?_⟩
  have h := fetchFootprintPolygon_insufficient
    [Except.ok ⟨1, 2, 3⟩, Except.error "ray failed", Except.error "ray failed",
     Except.ok ⟨4, 5, 6⟩] (by decide)
  rw [h]
  rfl

/-- C4.  If exactly one of N ≥ 4 rays fails and the rest succeed, the
assembler does not fail: it returns a boundary of exactly N-1 points
(3(N-1) interleaved coordinates). -/
theorem fetchFootprintPolygon_single_failure
    (rayResults : List (Except String InterceptPointKm))
    (hn : 4 ≤ rayResults.length)
    (hone : (rayResults.countP fun r => !r.isOk) = 1) :
    ∃ boundary, fetchFootprintPolygon rayResults = .ok boundary ∧
      boundary.length = 3 * (rayResults.length - 1) := by
  have hcnt := countP_isOk_add_not rayResults
  have hok : (rayResults.filterMap Except.toOption).length = rayResults.length - 1 := by
    rw [filterMap_toOption_length_countP]; omega
  refine ⟨_, fetchFootprintPolygon_ok rayResults (by omega), ?_⟩
  rw [length_flatMap_three, hok]

theorem fetchFootprintPolygon_single_failure_witness :
    4 ≤ ([Except.ok ⟨1, 2, 3⟩, Except.error "ray failed", Except.ok ⟨4, 5, 6⟩,
          Except.ok ⟨7, 8, 9⟩] : List (Except String InterceptPointKm)).length ∧
    (([Except.ok ⟨1, 2, 3⟩, Except.error "ray failed", Except.ok ⟨4, 5, 6⟩,
          Except.ok ⟨7, 8, 9⟩] :
        List (Except String InterceptPointKm)).countP fun r => !r.isOk) = 1 ∧
    ∃ boundary,
      fetchFootprintPolygon [Except.ok ⟨1, 2, 3⟩, Except.error "ray failed",
          Except.ok ⟨4, 5, 6⟩, Except.ok ⟨7, 8, 9⟩] = .ok boundary ∧
      boundary.length = 3 * (4 - 1) := by
  refine ⟨by decide, by decide, ?_⟩
  exact fetchFootprintPolygon_single_failure
    [Except.ok ⟨1, 2, 3⟩, Except.error "ray failed", Except.ok ⟨4, 5, 6⟩,
     Except.ok ⟨7, 8, 9⟩] (by decide) (by decide)

lemma findIdx?_outputID_eq_none (cols : List WGC2Column) (id : String) :
    (cols.findIdx? fun col => col.outputID == id) = none ↔
      id ∉ cols.map fun col => col.outputID := by
  rw [List.findIdx?_eq_none_iff]
  simp only [List.mem_map, not_exists, not_and, beq_eq_false_iff_ne, ne_eq]

/-- C6.  A tabular payload whose column descriptors omit one (or more) of
the outputIDs X, Y, Z (case-exact match) makes the parser fail, and the
error message lists exactly the outputIDs that were found. -/
theorem parseInterceptPoint_missing_columns
    (jsParseFloat : String → Option ℚ) (cols : List WGC2Column) (rows : List RowVal)
    (hmissing : "X" ∉ (cols.map fun col => col.outputID) ∨
      "Y" ∉ (cols.map fun col => col.outputID) ∨
      "Z" ∉ (cols.map fun col => col.outputID)) :
    parseInterceptPoint jsParseFloat ⟨some cols, some rows⟩ =
      .error ("Could not find X, Y, Z columns in result data. Available outputIDs: "
        ++ String.intercalate ", " (cols.map fun col => col.outputID)) := by
  unfold parseInterceptPoint
  have hguard : ((cols.findIdx? fun col => col.outputID == "X").isNone
      || (cols.findIdx? fun col => col.outputID == "Y").isNone
      || (cols.findIdx? fun col => col.outputID == "Z").isNone) = true := by
    rcases hmissing with h | h | h
    · rw [← findIdx?_outputID_eq_none cols "X"] at h
      simp [h]
    · rw [← findIdx?_outputID_eq_none cols "Y"] at h
      simp [h]
    · rw [← findIdx?_outputID_eq_none cols "Z"] at h
      simp [h]
  simp only [hguard, if_true]

theorem parseInterceptPoint_missing_columns_witness :
    ("Z" ∉ ([⟨"X pos", "DOUBLE", "km", "X"⟩, ⟨"Y pos", "DOUBLE", "km", "Y"⟩] :
        List WGC2Column).map fun col => col.outputID) ∧
    parseInterceptPoint (fun _ => none)
        ⟨some [⟨"X pos", "DOUBLE", "km", "X"⟩, ⟨"Y pos", "DOUBLE", "km", "Y"⟩],
         some [RowVal.arr [CellVal.num 1, CellVal.num 2]]⟩ =
      .error "Could not find X, Y, Z columns in result data. Available outputIDs: X, Y" := by
  refine ⟨by decide, ?_⟩
  have h := parseInterceptPoint_missing_columns (fun _ => none)
    [⟨"X pos", "DOUBLE", "km", "X"⟩, ⟨"Y pos", "DOUBLE", "km", "Y"⟩]
    [RowVal.arr [CellVal.num 1, CellVal.num 2]] (Or.inr (Or.inr (by decide)))
  rw [h]
  rfl

/-- C10.  When the X/Y/Z columns are all located and at least one row
exists, a first row that is not an array, or whose length does not exceed
the largest located column index, makes the parser fail with the explicit
invalid-row-format error (it never builds a point from out-of-bounds
entries). -/
theorem parseInterceptPoint_invalid_row
    (jsParseFloat : String → Option ℚ) (cols : List WGC2Column)
    (rows : List RowVal) (row : RowVal) (rest : List RowVal)
    (xi yi zi : ℕ)
    (hx : (cols.findIdx? fun col => col.outputID == "X") = some xi)
    (hy : (cols.findIdx? fun col => col.outputID == "Y") = some yi)
    (hz : (cols.findIdx? fun col => col.outputID == "Z") = some zi)
    (hrows : rows = row :: rest)
    (hbad : row = RowVal.nonArr ∨
      ∃ cells, row = RowVal.arr cells ∧ cells.length ≤ max xi (max yi zi)) :
    parseInterceptPoint jsParseFloat ⟨some cols, some rows⟩ =
      .error "Invalid row format in WGC2 result data" := by
  unfold parseInterceptPoint
  simp only [hx, hy, hz, Option.isNone_none, Option.isNone_some, Bool.or_self,
    Bool.or_false, Bool.false_or, if_false, Option.getD_some, hrows]
  rcases hbad with hbad | ⟨cells, hcells, hlen⟩
  · subst hbad
    rfl
  · subst hcells
    simp [hlen]

theorem parseInterceptPoint_invalid_row_witness :
    (([⟨"X pos", "DOUBLE", "km", "X"⟩, ⟨"Y pos", "DOUBLE", "km", "Y"⟩,
        ⟨"Z pos", "DOUBLE", "km", "Z"⟩] : List WGC2Column).findIdx?
      fun col => col.outputID == "X") = some 0 ∧
    parseInterceptPoint (fun _ => none)
        ⟨some [⟨"X pos", "DOUBLE", "km", "X"⟩, ⟨"Y pos", "DOUBLE", "km", "Y"⟩,
               ⟨"Z pos", "DOUBLE", "km", "Z"⟩],
         some [RowVal.arr [CellVal.num 1, CellVal.num 2]]⟩ =
      .error "Invalid row format in WGC2 result data" := by
  refine ⟨by decide, ?_⟩
  exact parseInterceptPoint_invalid_row (fun _ => none)
    [⟨"X pos", "DOUBLE", "km", "X"⟩, ⟨"Y pos", "DOUBLE", "km", "Y"⟩,
     ⟨"Z pos", "DOUBLE", "km", "Z"⟩]
    [RowVal.arr [CellVal.num 1, CellVal.num 2]]
    (RowVal.arr [CellVal.num 1, CellVal.num 2]) [] 0 1 2
    (by decide) (by decide) (by decide) rfl
    (Or.inr ⟨[CellVal.num 1, CellVal.num 2], rfl, by decide⟩)

lemma flattenPoints_length (pts : List (ℚ × ℚ × ℚ)) :
    (flattenPoints pts).length = 3 * pts.length := by
  unfold flattenPoints
  exact length_flatMap_three pts _ _ _

lemma flattenPoints_getD (pts : List (ℚ × ℚ × ℚ)) (j : ℕ) (hj : j < pts.length) :
    (flattenPoints pts).getD (3 * j) 0 = (pts.getD j (0, 0, 0)).1 ∧
    (flattenPoints pts).getD (3 * j + 1) 0 = (pts.getD j (0, 0, 0)).2.1 ∧
    (flattenPoints pts).getD (3 * j + 2) 0 = (pts.getD j (0, 0, 0)).2.2 := by
  induction pts generalizing j with
  | nil => simp at hj
  | cons p rest ih =>
    cases j with
    | zero => simp [flattenPoints]
    | succ j =>
      have hj' : j < rest.length := by simpa using hj
      have h3 : 3 * (j + 1) = 3 * j + 1 + 1 + 1 := by omega
      have h3a : 3 * (j + 1) + 1 = (3 * j + 1) + 1 + 1 + 1 := by omega
      have h3b : 3 * (j + 1) + 2 = (3 * j + 2) + 1 + 1 + 1 := by omega
      have ihj := ih j hj'
      refine ⟨?_, ?_, ?_⟩
      · rw [h3]; simpa [flattenPoints] using ihj.1
      · rw [h3a]; simpa [flattenPoints] using ihj.2.1
      · rw [h3b]; simpa [flattenPoints] using ihj.2.2

lemma flattenPoints_flatMap {α : Type} (l : List α) (g : α → List (ℚ × ℚ × ℚ)) :
    flattenPoints (l.flatMap g) = l.flatMap fun x => flattenPoints (g x) := by
  unfold flattenPoints
  exact List.flatMap_assoc l g _

lemma flattenPoints_triple (a b c : ℚ × ℚ × ℚ) :
    flattenPoints [a, b, c] =
      [a.1, a.2.1, a.2.2, b.1, b.2.1, b.2.2, c.1, c.2.1, c.2.2] := rfl

/-- C7.  For a boundary of n ≥ 3 points, the triangulator succeeds and
emits exactly n-2 triangles; the i-th (0-based i, triangles 1..n-2 of the
claim) is (p0, p[i+1], p[i+2]), so every triangle begins with point 0's
coordinates and a 3-point boundary yields the single triangle (p0,p1,p2). -/
theorem triangulateFanXYZ_fan (pts : List (ℚ × ℚ × ℚ)) (hlen : 3 ≤ pts.length) :
    triangulateFanXYZ (flattenPoints pts) = .ok (flattenPoints (fanTriangles pts)) := by
  have hdiv : (flattenPoints pts).length / 3 = pts.length := by
    rw [flattenPoints_length]; omega
  simp only [triangulateFanXYZ, hdiv, if_neg (by omega : ¬ pts.length < 3)]
  congr 1
  unfold fanTriangles
  rw [flattenPoints_flatMap]
  apply List.flatMap_congr
  intro i hi
  rw [List.mem_range] at hi
  rw [flattenPoints_triple]
  have ha := flattenPoints_getD pts 0 (by omega)
  have hb := flattenPoints_getD pts (i + 1) (by omega)
  have hc := flattenPoints_getD pts (i + 2) (by omega)
  have ha0 : (flattenPoints pts).getD 0 0 = (pts.getD 0 (0, 0, 0)).1 := ha.1
  have ha1 : (flattenPoints pts).getD 1 0 = (pts.getD 0 (0, 0, 0)).2.1 := ha.2.1
  have ha2 : (flattenPoints pts).getD 2 0 = (pts.getD 0 (0, 0, 0)).2.2 := ha.2.2
  have e1 : (i + 1) * 3 = 3 * (i + 1) := by ring
  have e2 : (i + 2) * 3 = 3 * (i + 2) := by ring
  rw [e1, e2, ha0, ha1, ha2, hb.1, hb.2.1, hb.2.2, hc.1, hc.2.1, hc.2.2]

theorem triangulateFanXYZ_fan_witness :
    3 ≤ ([((0 : ℚ), (0 : ℚ), (0 : ℚ)), (1, 0, 0), (1/2, 1, 0)] :
        List (ℚ × ℚ × ℚ)).length ∧
    triangulateFanXYZ (flattenPoints [((0 : ℚ), (0 : ℚ), (0 : ℚ)), (1, 0, 0), (1/2, 1, 0)]) =
      .ok [0, 0, 0, 1, 0, 0, 1/2, 1, 0] := by
  refine ⟨by decide, ?_⟩
  have h := triangulateFanXYZ_fan [((0 : ℚ), (0 : ℚ), (0 : ℚ)), (1, 0, 0), (1/2, 1, 0)]
    (by decide)
  rw [h]
  rfl

/-- C8.  A boundary with fewer than 3 vertices makes the triangulator
fail with the insufficient-vertices error naming the vertex count n. -/
theorem triangulateFanXYZ_insufficient (pts : List (ℚ × ℚ × ℚ))
    (hlen : pts.length < 3) :
    triangulateFanXYZ (flattenPoints pts) =
      .error ("Insufficient vertices for triangulation: " ++ toString pts.length
        ++ ". Need at least 3.") := by
  have hdiv : (flattenPoints pts).length / 3 = pts.length := by
    rw [flattenPoints_length]; omega
  simp only [triangulateFanXYZ, hdiv, if_pos hlen]

theorem triangulateFanXYZ_insufficient_witness :
    ([((0 : ℚ), (0 : ℚ), (0 : ℚ)), (1, 1, 1)] : List (ℚ × ℚ × ℚ)).length < 3 ∧
    triangulateFanXYZ (flattenPoints [((0 : ℚ), (0 : ℚ), (0 : ℚ)), (1, 1, 1)]) =
      .error "Insufficient vertices for triangulation: 2. Need at least 3." := by
  refine ⟨by decide, ?_⟩
  have h := triangulateFanXYZ_insufficient [((0 : ℚ), (0 : ℚ), (0 : ℚ)), (1, 1, 1)]
    (by decide)
  rw [h]
  rfl

/-! ### The polling state machine (src/lib/wgc2Footprint.ts lines 82-176)

`pollForCompletion` is a network loop.  Each `fetch` it performs is
modelled by an oracle outcome: the promise rejects (a transport error,
which propagates as a thrown exception), the response arrives with
`ok = false`, or the response arrives with `ok = true` and a parsed
JSON body. -/

/-- Outcome of one `fetch` call, as distinguished by the source. -/
inductive FetchOutcome (β : Type) where
  | reject (msg : String)
  | notOk (statusText : String) (errText : String)
  | success (body : β)
deriving DecidableEq

/-- The fields of the status response body that the poll loop reads:
`status`, `error`, `message`, and `result?.phase` (flattened; `none`
models an absent `result` or absent `phase`, which the source defaults
to PENDING). -/
structure StatusBody where
  status : String
  error : Option String
  message : Option String
  phase : Option String
deriving DecidableEq

/-- A result payload object: its `error` / `message` fields and the
tabular data handed to the parser. -/
structure ResultPayload where
  error : Option String
  message : Option String
  data : WGC2ResultResponse
deriving DecidableEq

/-- The parsed JSON body of a results fetch: either the JSON literal
`null`, or an object, read both as a possible `result` wrapper (`some`
when the field is present and truthy) and as a payload itself
(`self`). -/
inductive ResultsBody where
  | jnull
  | obj (result : Option ResultPayload) (self : ResultPayload)
deriving DecidableEq

/-- The network oracle for one job: the outcome of the status fetch and
of the results fetch that the loop would issue on poll attempt k. -/
structure PollOracle where
  statusFetch : ℕ → FetchOutcome StatusBody
  resultsFetch : ℕ → FetchOutcome ResultsBody

/-- The poll ceiling, `const MAX_POLL_ATTEMPTS = 12` (line 82 of the source). -/
def MAX_POLL_ATTEMPTS : ℕ := 12

/-- The two throws after the while loop (lines 169-175): the poll-ceiling
error naming the last observed phase, and the dead-code fallback. -/
def pollExit (phase : String) : Except String ResultPayload :=
  if phase ≠ "COMPLETE" then
    .error ("Calculation did not complete within " ++ toString MAX_POLL_ATTEMPTS
      ++ " attempts. Last phase: " ++ phase)
  else
    .error "Unexpected polling completion state"

/-- The result-retrieval block of the COMPLETE branch (lines 128-151):
fetch results, coalesce `resultResponseData.result || resultResponseData`,
reject embedded errors, return the payload.  A `null` JSON body makes the
`.result` access throw in JavaScript, modelled as the propagated
TypeError.  (The `!resultData` throw of line 147 is unreachable for
object/null bodies, the only shapes modelled here.) -/
def fetchCompleteResults (o : PollOracle) (attempt : ℕ) : Except String ResultPayload :=
  match o.resultsFetch attempt with
  | .reject msg => .error msg
  | .notOk st errText =>
    .error ("Failed to fetch calculation results: " ++ st ++ ". " ++ errText)
  | .success .jnull => .error "TypeError: Cannot read properties of null (reading 'result')"
  | .success (.obj result self) =>
    let resultData := result.getD self
    if resultData.error.isSome then
      .error ("WGC2 calculation returned an error: " ++ resultData.error.getD "")
    else
      .ok resultData

/-- The while loop of `pollForCompletion` (lines 104-167), with the
remaining loop iterations (`MAX_POLL_ATTEMPTS - pollAttempts`) as
structural fuel.  Note the FAILED branch (lines 152-164): when the
results fetch responds non-ok, the source does nothing and falls through
to `pollAttempts++`, continuing the loop. -/
def pollLoop (o : PollOracle) : ℕ → ℕ → String → Except String ResultPayload
  | 0, _, phase => pollExit phase
  | fuel + 1, pollAttempts, phase =>
    if phase = "COMPLETE" then pollExit phase
    else
      match o.statusFetch pollAttempts with
      | .reject msg => .error msg
      | .notOk st errText =>
        .error ("Failed to fetch calculation status: " ++ st ++ ". " ++ errText)
      | .success statusData =>
        if statusData.status ≠ "OK" ∨ statusData.error.isSome then
          .error ("WGC2 status check failed: "
            ++ statusData.error.getD (statusData.message.getD "Unknown error"))
        else
          let phase' := statusData.phase.getD "PENDING"
          if phase' = "COMPLETE" then
            fetchCompleteResults o pollAttempts
          else if phase' = "FAILED" then
            match o.resultsFetch pollAttempts with
            | .reject msg => .error msg
            | .success .jnull =>
              .error "TypeError: Cannot read properties of null (reading 'error')"
            | .success (.obj result self) =>
              .error ("WGC2 calculation failed: "
                ++ self.error.getD (self.message.getD "Unknown error"))
            | .notOk _ _ => pollLoop o fuel (pollAttempts + 1) phase'
          else
            pollLoop o fuel (pollAttempts + 1) phase'

/-- Embedding of `pollForCompletion` (src/lib/wgc2Footprint.ts lines
100-176): `pollAttempts = 0`, `phase = 'PENDING'`. -/
def pollForCompletion (o : PollOracle) : Except String ResultPayload :=
  pollLoop o MAX_POLL_ATTEMPTS 0 "PENDING"

/-- A job whose status polls all report phase FAILED and whose
detail-result fetch always responds non-ok. -/
def failedDetailNotOkOracle : PollOracle where
  statusFetch := fun _ => .success ⟨"OK", none, none, some "FAILED"⟩
  resultsFetch := fun _ => .notOk "Service Unavailable" "upstream detail unavailable"

/-- Counterexample to C2.  When polling reports phase FAILED but the
detail-result fetch fails (non-ok response), the client does not surface
a generic calculation-failure message: it keeps polling and the run ends
on the poll-ceiling ("did not complete") path — exactly the escalation to
a different (timeout) failure path that the claim rules out. -/
theorem pollForCompletion_failed_detail_notOk_times_out :
    pollForCompletion failedDetailNotOkOracle =
      .error "Calculation did not complete within 12 attempts. Last phase: FAILED" := by
  rfl

/-- C2 as amended.  On observing phase FAILED during polling:
(1) if the detail-result fetch succeeds, the client fails with a message
containing the upstream-supplied error text
(`error`, falling back to `message`, falling back to "Unknown error");
(2) if the detail fetch responds non-ok, the client does not fail with a
generic fallback message — it consumes the attempt and continues polling
with phase FAILED;
(3) consequently, when every status poll reports FAILED and every detail
fetch responds non-ok, the run ends with the poll-ceiling error naming
the last phase FAILED (the timeout path), not a calculation-failure
message. -/
lemma pollLoop_failed_notOk_step (o : PollOracle) (fuel attempts : ℕ) (phase : String)
    (msg : Option String) (st et : String)
    (hphase : phase ≠ "COMPLETE")
    (hstat : o.statusFetch attempts = .success ⟨"OK", none, msg, some "FAILED"⟩)
    (hres : o.resultsFetch attempts = .notOk st et) :
    pollLoop o (fuel + 1) attempts phase = pollLoop o fuel (attempts + 1) "FAILED" := by
  simp [pollLoop, hphase, hstat, hres]

theorem pollForCompletion_failed_surfacing :
    (∀ (o : PollOracle) (fuel attempts : ℕ) (phase : String) (msg : Option String)
        (result : Option ResultPayload) (self : ResultPayload),
      phase ≠ "COMPLETE" →
      o.statusFetch attempts = .success ⟨"OK", none, msg, some "FAILED"⟩ →
      o.resultsFetch attempts = .success (.obj result self) →
      pollLoop o (fuel + 1) attempts phase =
        .error ("WGC2 calculation failed: "
          ++ self.error.getD (self.message.getD "Unknown error"))) ∧
    (∀ (o : PollOracle) (fuel attempts : ℕ) (phase : String) (msg : Option String)
        (st et : String),
      phase ≠ "COMPLETE" →
      o.statusFetch attempts = .success ⟨"OK", none, msg, some "FAILED"⟩ →
      o.resultsFetch attempts = .notOk st et →
      pollLoop o (fuel + 1) attempts phase = pollLoop o fuel (attempts + 1) "FAILED") ∧
    (∀ (o : PollOracle),
      (∀ k, ∃ msg, o.statusFetch k = .success ⟨"OK", none, msg, some "FAILED"⟩) →
      (∀ k, ∃ st et, o.resultsFetch k = .notOk st et) →
      pollForCompletion o =
        .error ("Calculation did not complete within " ++ toString MAX_POLL_ATTEMPTS
          ++ " attempts. Last phase: FAILED")) := by
  refine ⟨?_, ?_, ?_⟩
  · intro o fuel attempts phase msg result self hphase hstat hres
    simp [pollLoop, hphase, hstat, hres]
  · intro o fuel attempts phase msg st et hphase hstat hres
    exact pollLoop_failed_notOk_step o fuel attempts phase msg st et hphase hstat hres
  · intro o hstat hres
    have key : ∀ fuel attempts, pollLoop o fuel attempts "FAILED" =
        .error ("Calculation did not complete within " ++ toString MAX_POLL_ATTEMPTS
          ++ " attempts. Last phase: FAILED") := by
      intro fuel
      induction fuel with
      | zero => intro attempts; rfl
      | succ fuel ih =>
        intro attempts
        obtain ⟨msg, hs⟩ := hstat attempts
        obtain ⟨st, et, hr⟩ := hres attempts
        rw [pollLoop_failed_notOk_step o fuel attempts "FAILED" msg st et (by decide) hs hr]
        exact ih (attempts + 1)
    obtain ⟨msg, hs⟩ := hstat 0
    obtain ⟨st, et, hr⟩ := hres 0
    show pollLoop o MAX_POLL_ATTEMPTS 0 "PENDING" = _
    rw [show MAX_POLL_ATTEMPTS = 11 + 1 from rfl]
    rw [pollLoop_failed_notOk_step o 11 0 "PENDING" msg st et (by decide) hs hr]
    exact key 11 1

/-- A job whose first status poll reports phase FAILED and whose
detail-result fetch succeeds with an upstream error text. -/
def failedDetailOkOracle : PollOracle where
  statusFetch := fun _ => .success ⟨"OK", none, none, some "FAILED"⟩
  resultsFetch := fun _ =>
    .success (.obj none ⟨some "SPICE(NOINTERCEPT)", none, ⟨none, none⟩⟩)

/-- A second all-FAILED job whose detail fetches respond 502. -/
def failedDetailBadGatewayOracle : PollOracle where
  statusFetch := fun _ => .success ⟨"OK", none, some "job failed", some "FAILED"⟩
  resultsFetch := fun _ => .notOk "Bad Gateway" "upstream 502"

theorem pollForCompletion_failed_surfacing_witness :
    pollForCompletion failedDetailOkOracle =
      .error "WGC2 calculation failed: SPICE(NOINTERCEPT)" ∧
    pollLoop failedDetailBadGatewayOracle 12 0 "PENDING" =
      pollLoop failedDetailBadGatewayOracle 11 1 "FAILED" ∧
    pollForCompletion failedDetailBadGatewayOracle =
      .error "Calculation did not complete within 12 attempts. Last phase: FAILED" := by
  refine ⟨?_, ?_, ?_⟩
  · exact pollForCompletion_failed_surfacing.1 failedDetailOkOracle 11 0 "PENDING"
      none none ⟨some "SPICE(NOINTERCEPT)", none, ⟨none, none⟩⟩
      (by decide) rfl rfl
  · exact pollForCompletion_failed_surfacing.2.1 failedDetailBadGatewayOracle 11 0 "PENDING"
      (some "job failed") "Bad Gateway" "upstream 502" (by decide) rfl rfl
  · exact pollForCompletion_failed_surfacing.2.2 failedDetailBadGatewayOracle
      (fun k => ⟨some "job failed", rfl⟩) (fun k => ⟨"Bad Gateway", "upstream 502", rfl⟩)

/-! ### The perimeter routine (src/app/api/footprint/route.ts lines
120-135; an identical copy appears in the other route iteration). -/

/-- Embedding of `calculateBoundaryMeters`: for fewer than 2 vertices the
perimeter is 0, otherwise every vertex contributes the Euclidean distance
to its cyclic successor (`(i + 1) % vertices.length`). -/
noncomputable def calculateBoundaryMeters (vertices : List (ℝ × ℝ × ℝ)) : ℝ :=
  if vertices.length < 2 then 0
  else
    ((List.range vertices.length).map fun i =>
      let current := vertices.getD i (0, 0, 0)
      let next := vertices.getD ((i + 1) % vertices.length) (0, 0, 0)
      let dx := next.1 - current.1
      let dy := next.2.1 - current.2.1
      let dz := next.2.2 - current.2.2
      Real.sqrt (dx * dx + dy * dy + dz * dz)).sum

/-- Euclidean distance between two 3D points, written with the same
products as the source. -/
noncomputable def segmentLength (p q : ℝ × ℝ × ℝ) : ℝ :=
  Real.sqrt ((q.1 - p.1) * (q.1 - p.1) + (q.2.1 - p.2.1) * (q.2.1 - p.2.1)
    + (q.2.2 - p.2.2) * (q.2.2 - p.2.2))

/-- The specification's perimeter: sum of Euclidean distances between
consecutive boundary points, wrapping from the last point back to the
first (each point paired with its cyclic successor). -/
noncomputable def closedPerimeter (vs : List (ℝ × ℝ × ℝ)) : ℝ :=
  ((vs.zip (vs.rotate 1)).map fun pq => segmentLength pq.1 pq.2).sum

/-- Counterexample to C9.  The claim's "perimeter of a boundary of 2
points is 0" is false: for the two distinct points (0,0,0) and (1,0,0)
the routine sums both wrap-around segments and returns 2, not 0 (the
`< 2` guard does not cover n = 2). -/
theorem calculateBoundaryMeters_two_points_not_zero :
    calculateBoundaryMeters [((0 : ℝ), (0 : ℝ), (0 : ℝ)), (1, 0, 0)] = 2 ∧
    (2 : ℝ) ≠ 0 := by
  constructor
  · rw [calculateBoundaryMeters]
    norm_num [List.range_succ, Real.sqrt_one]
  · norm_num

/-- C9 as amended.  The routine returns 0 for fewer than 2 points, and
for n ≥ 2 returns the closed-polygon sum of Euclidean distances between
consecutive boundary points, wrapping from the last back to the first
(so a 2-point boundary yields twice the single distance, not 0); the
perimeter of a closed axis-aligned square of side s ≥ 0 is 4s. -/
theorem calculateBoundaryMeters_spec :
    (∀ vertices : List (ℝ × ℝ × ℝ), vertices.length < 2 →
      calculateBoundaryMeters vertices = 0) ∧
    (∀ vertices : List (ℝ × ℝ × ℝ), 2 ≤ vertices.length →
      calculateBoundaryMeters vertices = closedPerimeter vertices) ∧
    (∀ s : ℝ, 0 ≤ s →
      calculateBoundaryMeters [((0 : ℝ), (0 : ℝ), (0 : ℝ)), (s, 0, 0), (s, s, 0), (0, s, 0)] =
        4 * s) := by
  refine ⟨?_, ?_, ?_⟩
  · intro vs h
    rw [calculateBoundaryMeters, if_pos h]
  · intro vs h
    rw [calculateBoundaryMeters, if_neg (by omega)]
    unfold closedPerimeter
    congr 1
    apply List.ext_getElem
    · simp
    · intro i h1 h2
      simp only [List.getElem_map, List.getElem_range, List.getElem_zip,
        List.getElem_rotate]
      have hi : i < vs.length := by simpa using h1
      have hmod : (i + 1) % vs.length < vs.length := Nat.mod_lt _ (by omega)
      rw [List.getD_eq_getElem _ _ hi, List.getD_eq_getElem _ _ hmod]
      rfl
  · intro s hs
    rw [calculateBoundaryMeters, if_neg (by norm_num)]
    norm_num [List.range_succ, Real.sqrt_mul_self hs]
    ring

theorem calculateBoundaryMeters_spec_witness :
    calculateBoundaryMeters [((0 : ℝ), (0 : ℝ), (0 : ℝ))] = 0 ∧
    calculateBoundaryMeters [((0 : ℝ), (0 : ℝ), (0 : ℝ)), (1, 0, 0)] =
      closedPerimeter [((0 : ℝ), (0 : ℝ), (0 : ℝ)), (1, 0, 0)] ∧
    calculateBoundaryMeters [((0 : ℝ), (0 : ℝ), (0 : ℝ)), (2, 0, 0), (2, 2, 0), (0, 2, 0)] =
      4 * 2 :=
  ⟨calculateBoundaryMeters_spec.1 _ (by norm_num),
   calculateBoundaryMeters_spec.2.1 _ (by norm_num),
   calculateBoundaryMeters_spec.2.2 2 (by norm_num)⟩

/-! ### The ray-direction generator (src/lib/wgc2Footprint.ts lines
299-350), over the reals. -/

/-- Embedding of `THREE.Vector3.normalize`: divide each component by the Euclidean
length (THREE guards a zero length with `length() || 1`). -/
noncomputable def normalize3 (x y z : ℝ) : ℝ × ℝ × ℝ :=
  let len := Real.sqrt (x * x + y * y + z * z)
  let d := if len = 0 then 1 else len
  (x / d, y / d, z / d)

/-- Embedding of `generateFovBoundaryVectors`: convert the half-angles to
radians, then walk the FOV rectangle — bottom edge left to right (both
endpoints), right edge bottom to top (excluding the shared bottom
corner), top edge right to left (excluding the shared right corner), and
left edge top to bottom (excluding both corners) — mapping each swept
angle through tan and normalizing against boresight z = 1. -/
noncomputable def generateFovBoundaryVectors (halfHorizDeg halfVertDeg : ℝ)
    (samplesPerEdge : ℕ) : List (ℝ × ℝ × ℝ) :=
  let halfHorizRad := halfHorizDeg * Real.pi / 180
  let halfVertRad := halfVertDeg * Real.pi / 180
  let bottom := (List.range (samplesPerEdge + 1)).map fun (i : ℕ) =>
    let t := (i : ℝ) / (samplesPerEdge : ℝ)
    let x := -halfHorizRad + 2 * halfHorizRad * t
    normalize3 (Real.tan x) (-Real.tan halfVertRad) 1
  let right := (List.range' 1 samplesPerEdge).map fun (i : ℕ) =>
    let t := (i : ℝ) / (samplesPerEdge : ℝ)
    let y := -halfVertRad + 2 * halfVertRad * t
    normalize3 (Real.tan halfHorizRad) (Real.tan y) 1
  let top := (List.range' 1 samplesPerEdge).map fun (i : ℕ) =>
    let t := (i : ℝ) / (samplesPerEdge : ℝ)
    let x := halfHorizRad - 2 * halfHorizRad * t
    normalize3 (Real.tan x) (Real.tan halfVertRad) 1
  let left := (List.range' 1 (samplesPerEdge - 1)).map fun (i : ℕ) =>
    let t := (i : ℝ) / (samplesPerEdge : ℝ)
    let y := halfVertRad - 2 * halfVertRad * t
    normalize3 (-Real.tan halfHorizRad) (Real.tan y) 1
  bottom ++ right ++ top ++ left

/-- The value `c` occurs exactly once in the list `l`. -/
def appearsOnce {α : Type} (l : List α) (c : α) : Prop :=
  ∃ l₁ l₂, l = l₁ ++ c :: l₂ ∧ c ∉ l₁ ∧ c ∉ l₂

/-- The four FOV rectangle corner direction vectors, in generation order:
bottom-left, bottom-right, top-right, top-left. -/
noncomputable def cornerVectors (halfHorizDeg halfVertDeg : ℝ) : List (ℝ × ℝ × ℝ) :=
  let h := halfHorizDeg * Real.pi / 180
  let v := halfVertDeg * Real.pi / 180
  [normalize3 (-Real.tan h) (-Real.tan v) 1, normalize3 (Real.tan h) (-Real.tan v) 1,
   normalize3 (Real.tan h) (Real.tan v) 1, normalize3 (-Real.tan h) (Real.tan v) 1]

lemma not_appearsOnce_of_head_pair {α : Type} (a : α) (rest : List α) :
    ¬ appearsOnce (a :: a :: rest) a := by
  rintro ⟨l₁, l₂, heq, hn₁, hn₂⟩
  cases l₁ with
  | nil =>
    simp only [List.nil_append, List.cons.injEq] at heq
    exact hn₂ (heq.2 ▸ List.mem_cons_self a rest)
  | cons x l₁ =>
    simp only [List.cons_append, List.cons.injEq] at heq
    exact hn₁ (heq.1 ▸ List.mem_cons_self x l₁)

/-- Counterexample to C5.  For the positive finite half-angle pair
(180°, 45°) with samplesPerEdge = 1 the bottom-left corner vector does
not appear exactly once in the output: tan(±180°) = 0, so the bottom-left
and bottom-right corners collapse to the same vector, which therefore
occupies both of the first two slots. -/
theorem generateFovBoundaryVectors_corner_duplicate :
    ¬ appearsOnce (generateFovBoundaryVectors 180 45 1)
      (normalize3 (-Real.tan (180 * Real.pi / 180)) (-Real.tan (45 * Real.pi / 180)) 1) := by
  have htan : Real.tan ((180 : ℝ) * Real.pi / 180) = 0 := by
    rw [show (180 : ℝ) * Real.pi / 180 = Real.pi by ring, Real.tan_pi]
  have hc : normalize3 (-Real.tan (180 * Real.pi / 180)) (-Real.tan (45 * Real.pi / 180)) 1 =
      normalize3 0 (-Real.tan (45 * Real.pi / 180)) 1 := by
    rw [htan]; norm_num
  rw [hc]
  have hlist : generateFovBoundaryVectors 180 45 1 =
      [normalize3 0 (-Real.tan (45 * Real.pi / 180)) 1,
       normalize3 0 (-Real.tan (45 * Real.pi / 180)) 1,
       normalize3 0 (Real.tan (-(45 * Real.pi / 180) + 2 * (45 * Real.pi / 180))) 1,
       normalize3 (Real.tan (Real.pi - 2 * Real.pi)) (Real.tan (45 * Real.pi / 180)) 1] := by
    simp only [generateFovBoundaryVectors]
    norm_num [List.range_succ, List.range']
    rw [show -Real.pi + 2 * Real.pi = Real.pi by ring, Real.tan_pi]
  rw [hlist]
  exact not_appearsOnce_of_head_pair _ _

/-- Bottom-edge sample i (left to right): angle `-h + 2h·(i/s)` in x,
`-v` in y.  `h`, `v` are the half-angles in radians. -/
noncomputable def bottomVec (h v : ℝ) (s : ℕ) (i : ℕ) : ℝ × ℝ × ℝ :=
  normalize3 (Real.tan (-h + 2 * h * ((i : ℝ) / (s : ℝ)))) (-Real.tan v) 1

/-- Right-edge sample i (bottom to top): `h` in x, `-v + 2v·(i/s)` in y. -/
noncomputable def rightVec (h v : ℝ) (s : ℕ) (i : ℕ) : ℝ × ℝ × ℝ :=
  normalize3 (Real.tan h) (Real.tan (-v + 2 * v * ((i : ℝ) / (s : ℝ)))) 1

/-- Top-edge sample i (right to left): `h - 2h·(i/s)` in x, `v` in y. -/
noncomputable def topVec (h v : ℝ) (s : ℕ) (i : ℕ) : ℝ × ℝ × ℝ :=
  normalize3 (Real.tan (h - 2 * h * ((i : ℝ) / (s : ℝ)))) (Real.tan v) 1

/-- Left-edge sample i (top to bottom): `-h` in x, `v - 2v·(i/s)` in y. -/
noncomputable def leftVec (h v : ℝ) (s : ℕ) (i : ℕ) : ℝ × ℝ × ℝ :=
  normalize3 (-Real.tan h) (Real.tan (v - 2 * v * ((i : ℝ) / (s : ℝ)))) 1

lemma bottom_lambda (h v : ℝ) (s : ℕ) :
    (fun (i : ℕ) => normalize3 (Real.tan (-h + 2 * h * ((i : ℝ) / (s : ℝ)))) (-Real.tan v) 1)
      = bottomVec h v s := rfl

lemma right_lambda (h v : ℝ) (s : ℕ) :
    (fun (i : ℕ) => normalize3 (Real.tan h) (Real.tan (-v + 2 * v * ((i : ℝ) / (s : ℝ)))) 1)
      = rightVec h v s := rfl

lemma top_lambda (h v : ℝ) (s : ℕ) :
    (fun (i : ℕ) => normalize3 (Real.tan (h - 2 * h * ((i : ℝ) / (s : ℝ)))) (Real.tan v) 1)
      = topVec h v s := rfl

lemma left_lambda (h v : ℝ) (s : ℕ) :
    (fun (i : ℕ) => normalize3 (-Real.tan h) (Real.tan (v - 2 * v * ((i : ℝ) / (s : ℝ)))) 1)
      = leftVec h v s := rfl

lemma generateFov_decomp (hdeg vdeg : ℝ) (s : ℕ) :
    generateFovBoundaryVectors hdeg vdeg s =
      (List.range (s + 1)).map (bottomVec (hdeg * Real.pi / 180) (vdeg * Real.pi / 180) s)
      ++ (List.range' 1 s).map (rightVec (hdeg * Real.pi / 180) (vdeg * Real.pi / 180) s)
      ++ (List.range' 1 s).map (topVec (hdeg * Real.pi / 180) (vdeg * Real.pi / 180) s)
      ++ (List.range' 1 (s - 1)).map
          (leftVec (hdeg * Real.pi / 180) (vdeg * Real.pi / 180) s) := by
  simp only [generateFovBoundaryVectors]
  rw [bottom_lambda, right_lambda, top_lambda, left_lambda]

lemma normalize3_eq (a b : ℝ) :
    normalize3 a b 1 =
      (a / Real.sqrt (a * a + b * b + 1 * 1), b / Real.sqrt (a * a + b * b + 1 * 1),
       1 / Real.sqrt (a * a + b * b + 1 * 1)) := by
  have h1 : (0 : ℝ) < a * a + b * b + 1 * 1 := by nlinarith [sq_nonneg a, sq_nonneg b]
  have hn : 0 < Real.sqrt (a * a + b * b + 1 * 1) := Real.sqrt_pos.mpr h1
  simp only [normalize3, if_neg (ne_of_gt hn)]

lemma normalize3_one_inj {a b c d : ℝ} :
    normalize3 a b 1 = normalize3 c d 1 ↔ a = c ∧ b = d := by
  constructor
  · intro hEq
    have h1 : (0 : ℝ) < a * a + b * b + 1 * 1 := by nlinarith [sq_nonneg a, sq_nonneg b]
    have h2 : (0 : ℝ) < c * c + d * d + 1 * 1 := by nlinarith [sq_nonneg c, sq_nonneg d]
    have hn1 : 0 < Real.sqrt (a * a + b * b + 1 * 1) := Real.sqrt_pos.mpr h1
    have hn2 : 0 < Real.sqrt (c * c + d * d + 1 * 1) := Real.sqrt_pos.mpr h2
    rw [normalize3_eq, normalize3_eq, Prod.mk.injEq, Prod.mk.injEq] at hEq
    obtain ⟨hx, hy, hz⟩ := hEq
    have hnn : Real.sqrt (a * a + b * b + 1 * 1) = Real.sqrt (c * c + d * d + 1 * 1) := by
      have h := (div_eq_div_iff (ne_of_gt hn1) (ne_of_gt hn2)).mp hz
      linarith
    rw [← hnn] at hx hy
    constructor
    · have h := (div_eq_div_iff (ne_of_gt hn1) (ne_of_gt hn1)).mp hx
      exact mul_right_cancel₀ (ne_of_gt hn1) h
    · have h := (div_eq_div_iff (ne_of_gt hn1) (ne_of_gt hn1)).mp hy
      exact mul_right_cancel₀ (ne_of_gt hn1) h
  · rintro ⟨rfl, rfl⟩
    rfl

lemma normalize3_unit (a b : ℝ) :
    Real.sqrt ((normalize3 a b 1).1 * (normalize3 a b 1).1
      + (normalize3 a b 1).2.1 * (normalize3 a b 1).2.1
      + (normalize3 a b 1).2.2 * (normalize3 a b 1).2.2) = 1 := by
  have h1 : (0 : ℝ) < a * a + b * b + 1 * 1 := by nlinarith [sq_nonneg a, sq_nonneg b]
  have hn : 0 < Real.sqrt (a * a + b * b + 1 * 1) := Real.sqrt_pos.mpr h1
  have hsq : Real.sqrt (a * a + b * b + 1 * 1) * Real.sqrt (a * a + b * b + 1 * 1) =
      a * a + b * b + 1 * 1 := Real.mul_self_sqrt (le_of_lt h1)
  simp only [normalize3, if_neg (ne_of_gt hn)]
  have harg : a / Real.sqrt (a * a + b * b + 1 * 1) * (a / Real.sqrt (a * a + b * b + 1 * 1))
      + b / Real.sqrt (a * a + b * b + 1 * 1) * (b / Real.sqrt (a * a + b * b + 1 * 1))
      + 1 / Real.sqrt (a * a + b * b + 1 * 1) * (1 / Real.sqrt (a * a + b * b + 1 * 1)) = 1 := by
    rw [div_mul_div_comm, div_mul_div_comm, div_mul_div_comm, div_add_div_same,
      div_add_div_same, hsq]
    exact div_self (ne_of_gt h1)
  rw [harg, Real.sqrt_one]

lemma tan_arg_inj {bound α β : ℝ} (hb : bound < Real.pi / 2)
    (hα1 : -bound ≤ α) (hα2 : α ≤ bound) (hβ1 : -bound ≤ β) (hβ2 : β ≤ bound)
    (ht : Real.tan α = Real.tan β) : α = β :=
  Real.injOn_tan ⟨by linarith, by linarith⟩ ⟨by linarith, by linarith⟩ ht

lemma edge_t_mem (s i : ℕ) (hs : 1 ≤ s) (hi : i ≤ s) :
    0 ≤ (i : ℝ) / (s : ℝ) ∧ (i : ℝ) / (s : ℝ) ≤ 1 := by
  have hs0 : (0 : ℝ) < (s : ℝ) := by exact_mod_cast hs
  constructor
  · positivity
  · rw [div_le_one hs0]
    exact_mod_cast hi

lemma edge_arg_bounds {a : ℝ} (ha : 0 < a) {s i : ℕ} (hs : 1 ≤ s) (hi : i ≤ s) :
    -a ≤ -a + 2 * a * ((i : ℝ) / (s : ℝ)) ∧ -a + 2 * a * ((i : ℝ) / (s : ℝ)) ≤ a := by
  obtain ⟨h0, h1⟩ := edge_t_mem s i hs hi
  constructor <;> nlinarith

lemma edge_arg_eq_low {a : ℝ} (ha : 0 < a) {s i : ℕ} (hs : 1 ≤ s)
    (heq : -a + 2 * a * ((i : ℝ) / (s : ℝ)) = -a) : i = 0 := by
  have hs0 : (0 : ℝ) < (s : ℝ) := by exact_mod_cast hs
  have h2 : 2 * a * ((i : ℝ) / (s : ℝ)) = 0 := by linarith
  have h3 : (i : ℝ) / (s : ℝ) = 0 := by
    rcases mul_eq_zero.mp h2 with h | h
    · nlinarith
    · exact h
  have h4 : (i : ℝ) = 0 := by
    rcases div_eq_zero_iff.mp h3 with h | h
    · exact h
    · nlinarith
  exact_mod_cast h4

lemma edge_arg_eq_high {a : ℝ} (ha : 0 < a) {s i : ℕ} (hs : 1 ≤ s)
    (heq : -a + 2 * a * ((i : ℝ) / (s : ℝ)) = a) : i = s := by
  have hs0 : (0 : ℝ) < (s : ℝ) := by exact_mod_cast hs
  have h2 : 2 * a * ((i : ℝ) / (s : ℝ)) = 2 * a * 1 := by linarith
  have h3 : (i : ℝ) / (s : ℝ) = 1 := by
    have h2a : (2 : ℝ) * a ≠ 0 := by positivity
    exact mul_left_cancel₀ h2a h2
  field_simp at h3
  exact_mod_cast h3

lemma not_mem_map_range' {α : Type} {f : ℕ → α} {c : α} {a n : ℕ}
    (hf : ∀ i, a ≤ i → i < a + n → f i ≠ c) : c ∉ (List.range' a n).map f := by
  intro hmem
  obtain ⟨i, hi, hfi⟩ := List.mem_map.mp hmem
  obtain ⟨j, hj, hij⟩ := List.mem_range'.mp hi
  subst hij
  exact hf _ (by omega) (by omega) hfi

lemma not_mem_map_range {α : Type} {f : ℕ → α} {c : α} {n : ℕ}
    (hf : ∀ i, i < n → f i ≠ c) : c ∉ (List.range n).map f := by
  intro hmem
  obtain ⟨i, hi, hfi⟩ := List.mem_map.mp hmem
  exact hf _ (List.mem_range.mp hi) hfi

section FovCorners

variable {h v : ℝ} {s : ℕ}

lemma bottomVec_zero : bottomVec h v s 0 = normalize3 (-Real.tan h) (-Real.tan v) 1 := by
  simp only [bottomVec, Nat.cast_zero, zero_div, mul_zero, add_zero, Real.tan_neg]

lemma bottomVec_last (hs : 1 ≤ s) :
    bottomVec h v s s = normalize3 (Real.tan h) (-Real.tan v) 1 := by
  have hs0 : (s : ℝ) ≠ 0 := by
    have : (0 : ℝ) < (s : ℝ) := by exact_mod_cast hs
    linarith
  have harg : -h + 2 * h * ((s : ℝ) / (s : ℝ)) = h := by
    rw [div_self hs0]; ring
  simp only [bottomVec, harg]

lemma rightVec_last (hs : 1 ≤ s) :
    rightVec h v s s = normalize3 (Real.tan h) (Real.tan v) 1 := by
  have hs0 : (s : ℝ) ≠ 0 := by
    have : (0 : ℝ) < (s : ℝ) := by exact_mod_cast hs
    linarith
  have harg : -v + 2 * v * ((s : ℝ) / (s : ℝ)) = v := by
    rw [div_self hs0]; ring
  simp only [rightVec, harg]

lemma topVec_last (hs : 1 ≤ s) :
    topVec h v s s = normalize3 (-Real.tan h) (Real.tan v) 1 := by
  have hs0 : (s : ℝ) ≠ 0 := by
    have : (0 : ℝ) < (s : ℝ) := by exact_mod_cast hs
    linarith
  have harg : h - 2 * h * ((s : ℝ) / (s : ℝ)) = -h := by
    rw [div_self hs0]; ring
  simp only [topVec, harg, Real.tan_neg]

lemma bottomVec_ne_bl (hh1 : 0 < h) (hh2 : h < Real.pi / 2) (hs : 1 ≤ s)
    {i : ℕ} (hi1 : 1 ≤ i) (hi2 : i ≤ s) :
    bottomVec h v s i ≠ normalize3 (-Real.tan h) (-Real.tan v) 1 := by
  intro hEq
  obtain ⟨hx, -⟩ := normalize3_one_inj.mp hEq
  rw [← Real.tan_neg] at hx
  obtain ⟨hb1, hb2⟩ := edge_arg_bounds hh1 hs hi2
  have harg : -h + 2 * h * ((i : ℝ) / (s : ℝ)) = -h :=
    tan_arg_inj hh2 hb1 hb2 (by linarith) (by linarith) hx
  have h0 := edge_arg_eq_low hh1 hs harg
  omega

lemma bottomVec_ne_br (hh1 : 0 < h) (hh2 : h < Real.pi / 2) (hs : 1 ≤ s)
    {i : ℕ} (hi2 : i < s) :
    bottomVec h v s i ≠ normalize3 (Real.tan h) (-Real.tan v) 1 := by
  intro hEq
  obtain ⟨hx, -⟩ := normalize3_one_inj.mp hEq
  obtain ⟨hb1, hb2⟩ := edge_arg_bounds hh1 hs (le_of_lt hi2)
  have harg : -h + 2 * h * ((i : ℝ) / (s : ℝ)) = h :=
    tan_arg_inj hh2 hb1 hb2 (by linarith) (by linarith) hx
  have h0 := edge_arg_eq_high hh1 hs harg
  omega

lemma bottomVec_ne_top_corner (hv1 : 0 < v) (hv2 : v < Real.pi / 2) {i : ℕ} (X : ℝ) :
    bottomVec h v s i ≠ normalize3 X (Real.tan v) 1 := by
  intro hEq
  obtain ⟨-, hy⟩ := normalize3_one_inj.mp hEq
  have htv : 0 < Real.tan v := Real.tan_pos_of_pos_of_lt_pi_div_two hv1 hv2
  linarith

lemma topVec_ne_bottom_corner (hv1 : 0 < v) (hv2 : v < Real.pi / 2) {i : ℕ} (X : ℝ) :
    topVec h v s i ≠ normalize3 X (-Real.tan v) 1 := by
  intro hEq
  obtain ⟨-, hy⟩ := normalize3_one_inj.mp hEq
  have htv : 0 < Real.tan v := Real.tan_pos_of_pos_of_lt_pi_div_two hv1 hv2
  linarith

lemma rightVec_ne_neg_x (hh1 : 0 < h) (hh2 : h < Real.pi / 2) {i : ℕ} (Y : ℝ) :
    rightVec h v s i ≠ normalize3 (-Real.tan h) Y 1 := by
  intro hEq
  obtain ⟨hx, -⟩ := normalize3_one_inj.mp hEq
  have hth : 0 < Real.tan h := Real.tan_pos_of_pos_of_lt_pi_div_two hh1 hh2
  linarith

lemma leftVec_ne_pos_x (hh1 : 0 < h) (hh2 : h < Real.pi / 2) {i : ℕ} (Y : ℝ) :
    leftVec h v s i ≠ normalize3 (Real.tan h) Y 1 := by
  intro hEq
  obtain ⟨hx, -⟩ := normalize3_one_inj.mp hEq
  have hth : 0 < Real.tan h := Real.tan_pos_of_pos_of_lt_pi_div_two hh1 hh2
  linarith

lemma rightVec_ne_br (hv1 : 0 < v) (hv2 : v < Real.pi / 2) (hs : 1 ≤ s)
    {i : ℕ} (hi1 : 1 ≤ i) (hi2 : i ≤ s) :
    rightVec h v s i ≠ normalize3 (Real.tan h) (-Real.tan v) 1 := by
  intro hEq
  obtain ⟨-, hy⟩ := normalize3_one_inj.mp hEq
  rw [← Real.tan_neg] at hy
  obtain ⟨hb1, hb2⟩ := edge_arg_bounds hv1 hs hi2
  have harg : -v + 2 * v * ((i : ℝ) / (s : ℝ)) = -v :=
    tan_arg_inj hv2 hb1 hb2 (by linarith) (by linarith) hy
  have h0 := edge_arg_eq_low hv1 hs harg
  omega

lemma rightVec_ne_tr (hv1 : 0 < v) (hv2 : v < Real.pi / 2) (hs : 1 ≤ s)
    {i : ℕ} (hi2 : i < s) :
    rightVec h v s i ≠ normalize3 (Real.tan h) (Real.tan v) 1 := by
  intro hEq
  obtain ⟨-, hy⟩ := normalize3_one_inj.mp hEq
  obtain ⟨hb1, hb2⟩ := edge_arg_bounds hv1 hs (le_of_lt hi2)
  have harg : -v + 2 * v * ((i : ℝ) / (s : ℝ)) = v :=
    tan_arg_inj hv2 hb1 hb2 (by linarith) (by linarith) hy
  have h0 := edge_arg_eq_high hv1 hs harg
  omega

lemma topVec_ne_tr (hh1 : 0 < h) (hh2 : h < Real.pi / 2) (hs : 1 ≤ s)
    {i : ℕ} (hi1 : 1 ≤ i) (hi2 : i ≤ s) :
    topVec h v s i ≠ normalize3 (Real.tan h) (Real.tan v) 1 := by
  intro hEq
  obtain ⟨hx, -⟩ := normalize3_one_inj.mp hEq
  obtain ⟨hb1, hb2⟩ := edge_arg_bounds hh1 hs hi2
  have harg : h - 2 * h * ((i : ℝ) / (s : ℝ)) = h :=
    tan_arg_inj hh2 (by linarith) (by linarith) (by linarith) (by linarith) hx
  have harg2 : -h + 2 * h * ((i : ℝ) / (s : ℝ)) = -h := by linarith
  have h0 := edge_arg_eq_low hh1 hs harg2
  omega

lemma topVec_ne_tl (hh1 : 0 < h) (hh2 : h < Real.pi / 2) (hs : 1 ≤ s)
    {i : ℕ} (hi2 : i < s) :
    topVec h v s i ≠ normalize3 (-Real.tan h) (Real.tan v) 1 := by
  intro hEq
  obtain ⟨hx, -⟩ := normalize3_one_inj.mp hEq
  rw [← Real.tan_neg] at hx
  obtain ⟨hb1, hb2⟩ := edge_arg_bounds hh1 hs (le_of_lt hi2)
  have harg : h - 2 * h * ((i : ℝ) / (s : ℝ)) = -h :=
    tan_arg_inj hh2 (by linarith) (by linarith) (by linarith) (by linarith) hx
  have harg2 : -h + 2 * h * ((i : ℝ) / (s : ℝ)) = h := by linarith
  have h0 := edge_arg_eq_high hh1 hs harg2
  omega

lemma leftVec_ne_bl (hv1 : 0 < v) (hv2 : v < Real.pi / 2) (hs : 1 ≤ s)
    {i : ℕ} (hi2 : i < s) :
    leftVec h v s i ≠ normalize3 (-Real.tan h) (-Real.tan v) 1 := by
  intro hEq
  obtain ⟨-, hy⟩ := normalize3_one_inj.mp hEq
  rw [← Real.tan_neg] at hy
  obtain ⟨hb1, hb2⟩ := edge_arg_bounds hv1 hs (le_of_lt hi2)
  have harg : v - 2 * v * ((i : ℝ) / (s : ℝ)) = -v :=
    tan_arg_inj hv2 (by linarith) (by linarith) (by linarith) (by linarith) hy
  have harg2 : -v + 2 * v * ((i : ℝ) / (s : ℝ)) = v := by linarith
  have h0 := edge_arg_eq_high hv1 hs harg2
  omega

lemma leftVec_ne_tl (hv1 : 0 < v) (hv2 : v < Real.pi / 2) (hs : 1 ≤ s)
    {i : ℕ} (hi1 : 1 ≤ i) (hi2 : i ≤ s) :
    leftVec h v s i ≠ normalize3 (-Real.tan h) (Real.tan v) 1 := by
  intro hEq
  obtain ⟨-, hy⟩ := normalize3_one_inj.mp hEq
  obtain ⟨hb1, hb2⟩ := edge_arg_bounds hv1 hs hi2
  have harg : v - 2 * v * ((i : ℝ) / (s : ℝ)) = v :=
    tan_arg_inj hv2 (by linarith) (by linarith) (by linarith) (by linarith) hy
  have harg2 : -v + 2 * v * ((i : ℝ) / (s : ℝ)) = -v := by linarith
  have h0 := edge_arg_eq_low hv1 hs harg2
  omega

lemma appearsOnce_bl (hh1 : 0 < h) (hh2 : h < Real.pi / 2)
    (hv1 : 0 < v) (hv2 : v < Real.pi / 2) (m : ℕ) :
    appearsOnce ((List.range (m + 2)).map (bottomVec h v (m + 1))
        ++ (List.range' 1 (m + 1)).map (rightVec h v (m + 1))
        ++ (List.range' 1 (m + 1)).map (topVec h v (m + 1))
        ++ (List.range' 1 m).map (leftVec h v (m + 1)))
      (normalize3 (-Real.tan h) (-Real.tan v) 1) := by
  have hr : List.range (m + 2) = 0 :: List.range' 1 (m + 1) := by
    rw [List.range_eq_range']
    exact List.range'_succ 0 (m + 1) 1
  refine ⟨[], (List.range' 1 (m + 1)).map (bottomVec h v (m + 1))
      ++ (List.range' 1 (m + 1)).map (rightVec h v (m + 1))
      ++ (List.range' 1 (m + 1)).map (topVec h v (m + 1))
      ++ (List.range' 1 m).map (leftVec h v (m + 1)), ?_, by simp, ?_⟩
  · rw [hr, List.map_cons, bottomVec_zero]
    simp [List.cons_append]
  · intro hmem
    simp only [List.mem_append] at hmem
    rcases hmem with ((hB | hR) | hT) | hL
    · exact (not_mem_map_range' fun i hi1 hi2 =>
        bottomVec_ne_bl hh1 hh2 (by omega) hi1 (by omega)) hB
    · exact (not_mem_map_range' fun i hi1 hi2 => rightVec_ne_neg_x hh1 hh2 _) hR
    · exact (not_mem_map_range' fun i hi1 hi2 => topVec_ne_bottom_corner hv1 hv2 _) hT
    · exact (not_mem_map_range' fun i hi1 hi2 =>
        leftVec_ne_bl hv1 hv2 (by omega) (by omega)) hL

lemma appearsOnce_br (hh1 : 0 < h) (hh2 : h < Real.pi / 2)
    (hv1 : 0 < v) (hv2 : v < Real.pi / 2) (m : ℕ) :
    appearsOnce ((List.range (m + 2)).map (bottomVec h v (m + 1))
        ++ (List.range' 1 (m + 1)).map (rightVec h v (m + 1))
        ++ (List.range' 1 (m + 1)).map (topVec h v (m + 1))
        ++ (List.range' 1 m).map (leftVec h v (m + 1)))
      (normalize3 (Real.tan h) (-Real.tan v) 1) := by
  have hB : (List.range (m + 2)).map (bottomVec h v (m + 1)) =
      (List.range (m + 1)).map (bottomVec h v (m + 1))
        ++ [normalize3 (Real.tan h) (-Real.tan v) 1] := by
    rw [List.range_succ, List.map_append, List.map_singleton, bottomVec_last (by omega)]
  refine ⟨(List.range (m + 1)).map (bottomVec h v (m + 1)),
      (List.range' 1 (m + 1)).map (rightVec h v (m + 1))
      ++ (List.range' 1 (m + 1)).map (topVec h v (m + 1))
      ++ (List.range' 1 m).map (leftVec h v (m + 1)), ?_, ?_, ?_⟩
  · rw [hB]
    simp [List.append_assoc]
  · exact not_mem_map_range fun i hi => bottomVec_ne_br hh1 hh2 (by omega) hi
  · intro hmem
    simp only [List.mem_append] at hmem
    rcases hmem with (hR | hT) | hL
    · exact (not_mem_map_range' fun i hi1 hi2 =>
        rightVec_ne_br hv1 hv2 (by omega) hi1 (by omega)) hR
    · exact (not_mem_map_range' fun i hi1 hi2 => topVec_ne_bottom_corner hv1 hv2 _) hT
    · exact (not_mem_map_range' fun i hi1 hi2 => leftVec_ne_pos_x hh1 hh2 _) hL

lemma appearsOnce_tr (hh1 : 0 < h) (hh2 : h < Real.pi / 2)
    (hv1 : 0 < v) (hv2 : v < Real.pi / 2) (m : ℕ) :
    appearsOnce ((List.range (m + 2)).map (bottomVec h v (m + 1))
        ++ (List.range' 1 (m + 1)).map (rightVec h v (m + 1))
        ++ (List.range' 1 (m + 1)).map (topVec h v (m + 1))
        ++ (List.range' 1 m).map (leftVec h v (m + 1)))
      (normalize3 (Real.tan h) (Real.tan v) 1) := by
  have h1m : (1 : ℕ) + 1 * m = m + 1 := by omega
  have hR : (List.range' 1 (m + 1)).map (rightVec h v (m + 1)) =
      (List.range' 1 m).map (rightVec h v (m + 1))
        ++ [normalize3 (Real.tan h) (Real.tan v) 1] := by
    rw [List.range'_concat, h1m, List.map_append, List.map_singleton,
      rightVec_last (by omega)]
  refine ⟨(List.range (m + 2)).map (bottomVec h v (m + 1))
      ++ (List.range' 1 m).map (rightVec h v (m + 1)),
      (List.range' 1 (m + 1)).map (topVec h v (m + 1))
      ++ (List.range' 1 m).map (leftVec h v (m + 1)), ?_, ?_, ?_⟩
  · rw [hR]
    simp [List.append_assoc]
  · intro hmem
    simp only [List.mem_append] at hmem
    rcases hmem with hB | hR2
    · exact (not_mem_map_range fun i hi => bottomVec_ne_top_corner hv1 hv2 _) hB
    · exact (not_mem_map_range' fun i hi1 hi2 =>
        rightVec_ne_tr hv1 hv2 (by omega) (by omega)) hR2
  · intro hmem
    simp only [List.mem_append] at hmem
    rcases hmem with hT | hL
    · exact (not_mem_map_range' fun i hi1 hi2 =>
        topVec_ne_tr hh1 hh2 (by omega) hi1 (by omega)) hT
    · exact (not_mem_map_range' fun i hi1 hi2 => leftVec_ne_pos_x hh1 hh2 _) hL

lemma appearsOnce_tl (hh1 : 0 < h) (hh2 : h < Real.pi / 2)
    (hv1 : 0 < v) (hv2 : v < Real.pi / 2) (m : ℕ) :
    appearsOnce ((List.range (m + 2)).map (bottomVec h v (m + 1))
        ++ (List.range' 1 (m + 1)).map (rightVec h v (m + 1))
        ++ (List.range' 1 (m + 1)).map (topVec h v (m + 1))
        ++ (List.range' 1 m).map (leftVec h v (m + 1)))
      (normalize3 (-Real.tan h) (Real.tan v) 1) := by
  have h1m : (1 : ℕ) + 1 * m = m + 1 := by omega
  have hT : (List.range' 1 (m + 1)).map (topVec h v (m + 1)) =
      (List.range' 1 m).map (topVec h v (m + 1))
        ++ [normalize3 (-Real.tan h) (Real.tan v) 1] := by
    rw [List.range'_concat, h1m, List.map_append, List.map_singleton,
      topVec_last (by omega)]
  refine ⟨(List.range (m + 2)).map (bottomVec h v (m + 1))
      ++ (List.range' 1 (m + 1)).map (rightVec h v (m + 1))
      ++ (List.range' 1 m).map (topVec h v (m + 1)),
      (List.range' 1 m).map (leftVec h v (m + 1)), ?_, ?_, ?_⟩
  · rw [hT]
    simp [List.append_assoc]
  · intro hmem
    simp only [List.mem_append] at hmem
    rcases hmem with (hB | hR) | hT2
    · exact (not_mem_map_range fun i hi => bottomVec_ne_top_corner hv1 hv2 _) hB
    · exact (not_mem_map_range' fun i hi1 hi2 => rightVec_ne_neg_x hh1 hh2 _) hR
    · exact (not_mem_map_range' fun i hi1 hi2 =>
        topVec_ne_tl hh1 hh2 (by omega) (by omega)) hT2
  · exact not_mem_map_range' fun i hi1 hi2 =>
      leftVec_ne_tl hv1 hv2 (by omega) hi1 (by omega)

end FovCorners

/-- C5 as amended.  For half-angle pairs strictly between 0° and 90° —
the angles at which the tangent parameterization is injective, which is
what the specification's validity condition must mean (the counterexample
shows corner uniqueness fails at 180°) — and any samplesPerEdge ≥ 1, the
generator returns exactly 4·samplesPerEdge vectors, every one of unit
Euclidean norm, and each of the four rectangle corner vectors appears
exactly once in the output. -/
theorem generateFovBoundaryVectors_valid_fov (hdeg vdeg : ℝ) (s : ℕ)
    (hh1 : 0 < hdeg) (hh2 : hdeg < 90) (hv1 : 0 < vdeg) (hv2 : vdeg < 90)
    (hs : 1 ≤ s) :
    (generateFovBoundaryVectors hdeg vdeg s).length = 4 * s ∧
    (∀ u ∈ generateFovBoundaryVectors hdeg vdeg s,
      Real.sqrt (u.1 * u.1 + u.2.1 * u.2.1 + u.2.2 * u.2.2) = 1) ∧
    (∀ c ∈ cornerVectors hdeg vdeg,
      appearsOnce (generateFovBoundaryVectors hdeg vdeg s) c) := by
  have hpi := Real.pi_pos
  have hhr1 : 0 < hdeg * Real.pi / 180 := by positivity
  have hhr2 : hdeg * Real.pi / 180 < Real.pi / 2 := by nlinarith
  have hvr1 : 0 < vdeg * Real.pi / 180 := by positivity
  have hvr2 : vdeg * Real.pi / 180 < Real.pi / 2 := by nlinarith
  obtain ⟨m, rfl⟩ : ∃ m, s = m + 1 := ⟨s - 1, by omega⟩
  rw [generateFov_decomp]
  have hm2 : m + 1 - 1 = m := rfl
  rw [hm2]
  refine ⟨?_, ?_, ?_⟩
  · simp only [List.length_append, List.length_map, List.length_range,
      List.length_range']
    omega
  · intro u hu
    simp only [List.mem_append, List.mem_map] at hu
    rcases hu with (((⟨i, -, rfl⟩ | ⟨i, -, rfl⟩) | ⟨i, -, rfl⟩) | ⟨i, -, rfl⟩) <;>
      exact normalize3_unit _ _
  · intro c hc
    have hc4 : c = normalize3 (-Real.tan (hdeg * Real.pi / 180))
          (-Real.tan (vdeg * Real.pi / 180)) 1 ∨
        c = normalize3 (Real.tan (hdeg * Real.pi / 180))
          (-Real.tan (vdeg * Real.pi / 180)) 1 ∨
        c = normalize3 (Real.tan (hdeg * Real.pi / 180))
          (Real.tan (vdeg * Real.pi / 180)) 1 ∨
        c = normalize3 (-Real.tan (hdeg * Real.pi / 180))
          (Real.tan (vdeg * Real.pi / 180)) 1 := by
      simpa [cornerVectors] using hc
    rcases hc4 with rfl | rfl | rfl | rfl
    · exact appearsOnce_bl hhr1 hhr2 hvr1 hvr2 m
    · exact appearsOnce_br hhr1 hhr2 hvr1 hvr2 m
    · exact appearsOnce_tr hhr1 hhr2 hvr1 hvr2 m
    · exact appearsOnce_tl hhr1 hhr2 hvr1 hvr2 m

theorem generateFovBoundaryVectors_valid_fov_witness :
    (0 : ℝ) < 45 ∧ (45 : ℝ) < 90 ∧ 1 ≤ 2 ∧
    (generateFovBoundaryVectors 45 45 2).length = 4 * 2 ∧
    (∀ u ∈ generateFovBoundaryVectors 45 45 2,
      Real.sqrt (u.1 * u.1 + u.2.1 * u.2.1 + u.2.2 * u.2.2) = 1) ∧
    (∀ c ∈ cornerVectors 45 45, appearsOnce (generateFovBoundaryVectors 45 45 2) c) := by
  have h := generateFovBoundaryVectors_valid_fov 45 45 2
    (by norm_num) (by norm_num) (by norm_num) (by norm_num) (by norm_num)
  exact ⟨by norm_num, by norm_num, by norm_num, h.1, h.2.1, h.2.2⟩

end Sbib3d
